import Mathlib

/-!
# Verification of the lime X3DH core (`lime_x3dh.cpp`, `lime_x3dh_protocol.cpp`)

Shallow embedding of the X3DH sender/receiver session derivations, the
directory-protocol wire codec and the session-cache handling of the lime
library, together with proofs about the specified properties.

Modelling conventions:
* bytes are `Nat` values (the C++ reads raw `uint8_t` streams, so every byte
  is below 256 by construction; the embedding does not need that bound except
  where explicitly stated);
* byte buffers (`std::vector<uint8_t>`, typed key buffers) are `List Nat`;
* the external crypto primitives (EdDSA/ECDH over the curve, HMAC-SHA512,
  the EdDSA-to-Montgomery conversion) are consumed as typed primitives by the
  source and are therefore parameters of the embedding, collected in a
  `CryptoSuite`; private keys are `Nat` scalars and `pubOf` derives the
  public key (the Ed-to-X conversion performed by `set_secret`/`set_peerPublic`
  on identity keys is absorbed into the primitive);
* `C/C++` integer reads/writes: `(x >> 8) & 0xFF` is `x / 256 % 256`,
  `(hi << 8) | lo` on byte values is `256 * hi + lo`, and similarly for the
  32-bit accessors.
-/

namespace LimeX3DH

/-- External primitives consumed by `lime_x3dh.cpp` (the curve arithmetic,
HMAC-SHA512 and signature verification live below the verified layer). -/
structure CryptoSuite where
  /-- `DSA<Curve, DSAtype::publicKey>::ssize()` : length of a serialized DSA public key. -/
  dsaPubSize : Nat
  /-- `bctbx_hmacSha512 key message` (full 64-byte mac; callers truncate). -/
  hmacSha512 : List Nat → List Nat → List Nat
  /-- `keyExchange::computeSharedSecret` : `dh secret peerPublic`. -/
  dh : Nat → List Nat → List Nat
  /-- public key of a private scalar (`createKeyPair` / stored public half). -/
  pubOf : Nat → List Nat
  /-- `Signature::verify publicIk message signature`. -/
  verify : List Nat → List Nat → List Nat → Bool
  /-- `lime::settings::X3DH_SK_info` domain-separation string. -/
  skInfo : List Nat
  /-- `lime::settings::X3DH_AD_info` domain-separation string. -/
  adInfo : List Nat
  /-- size of a `DRChainKey` output buffer. -/
  skSize : Nat
  /-- size of a `SharedADBuffer` output buffer. -/
  adSize : Nat

/-- `X3DH_HKDF` of `lime_x3dh.cpp` (lines 52-62): one extraction round
`PRK = HMAC-SHA512(salt, input)` with a 64-byte zero-filled salt, one
expansion round `output = HMAC-SHA512(PRK, info || 0x01)`, truncated to the
output buffer's size. -/
def X3DH_HKDF (hmac : List Nat → List Nat → List Nat) (input info : List Nat)
    (outSize : Nat) : List Nat :=
  let expansionRoundInput := info ++ [1]
  let zeroFilledSalt := List.replicate 64 0
  let prk := hmac zeroFilledSalt input
  (hmac prk expansionRoundInput).take outSize

/-- A parsed peer key bundle (`X3DH_peerBundle<Curve>`): the optional one-time
prekey is `some (OPk, OPk_id)` exactly when the wire flag `haveOPk` was set. -/
structure X3DH_peerBundle where
  deviceId : List Nat
  Ik : List Nat
  SPk : List Nat
  SPk_id : Nat
  SPk_sig : List Nat
  OPk : Option (List Nat × Nat)
deriving DecidableEq, Repr

/-- Modelled from the spec: the X3DH-init header carried on the first message
(`buildMessage_X3DHinit` / `parseMessage_X3DHinit` live in
`lime_double_ratchet_protocol`, which is not among the provided sources);
per the spec it carries `Ik_initiator`, `Ek_initiator`, `spk_id`, `opk_id?`
and `have_opk`. -/
structure X3DHinitMsg where
  Ik : List Nat
  Ek : List Nat
  SPk_id : Nat
  OPk_id : Nat
  haveOPk : Bool
deriving DecidableEq, Repr

/-- Result of the sender-side X3DH derivation: the DR chain key `SK`, the
shared associated data `AD`, and the X3DH-init header to prepend. -/
structure SenderSessionData where
  sk : List Nat
  ad : List Nat
  initMsg : X3DHinitMsg
deriving DecidableEq, Repr

/-- Result of the receiver-side X3DH derivation. -/
structure ReceiverSessionData where
  sk : List Nat
  ad : List Nat
deriving DecidableEq, Repr

/-- The per-bundle derivation of `Lime<Curve>::X3DH_init_sender_session`
(`lime_x3dh.cpp` lines 90-144): build `HKDF_input = F || DH1 || DH2 || DH3
[|| DH4]` with `F` a run of `0xFF` of DSA-public-key length,
`DH1 = DH(self Ik, peer SPk)`, `DH2 = DH(Ek, peer Ik)`,
`DH3 = DH(Ek, peer SPk)`, `DH4 = DH(Ek, peer OPk)` iff the bundle holds an
OPk; derive `SK`, build the X3DH-init message, and derive
`AD = HKDF(self Ik || peer Ik || self deviceId || peer deviceId)`.
The ephemeral key `Ek` generated by `DH->createKeyPair(m_RNG)` is the
parameter `ekPriv`. -/
def X3DH_senderDerive (cs : CryptoSuite) (selfIkPriv : Nat)
    (selfDeviceId : List Nat) (ekPriv : Nat) (b : X3DH_peerBundle) :
    SenderSessionData :=
  let F := List.replicate cs.dsaPubSize 255
  let DH1 := cs.dh selfIkPriv b.SPk
  let DH2 := cs.dh ekPriv b.Ik
  let DH3 := cs.dh ekPriv b.SPk
  let HKDF_input := F ++ DH1 ++ DH2 ++ DH3
  let HKDF_input :=
    match b.OPk with
    | some (opk, _) => HKDF_input ++ cs.dh ekPriv opk
    | none => HKDF_input
  let SK := X3DH_HKDF cs.hmacSha512 HKDF_input cs.skInfo cs.skSize
  let initMsg : X3DHinitMsg :=
    { Ik := cs.pubOf selfIkPriv
      Ek := cs.pubOf ekPriv
      SPk_id := b.SPk_id
      OPk_id := match b.OPk with | some (_, kid) => kid | none => 0
      haveOPk := b.OPk.isSome }
  let AD_input := cs.pubOf selfIkPriv ++ b.Ik ++ selfDeviceId ++ b.deviceId
  let AD := X3DH_HKDF cs.hmacSha512 AD_input cs.adInfo cs.adSize
  { sk := SK, ad := AD, initMsg := initMsg }

/-- The derivation of `Lime<Curve>::X3DH_init_receiver_session`
(`lime_x3dh.cpp` lines 161-242): after computing `DH1 = DH(SPk, peer Ik)`
the code computes `DH3 = DH(SPk, Ek)` first (the SPk is already in the
key-exchange context), remembering the buffer end where `DH2` belongs
(`DH2pos`), appends `DH3`, then inserts `DH2 = DH(self Ik, Ek)` at the
remembered position, and finally appends `DH4 = DH(OPk, Ek)` when the init
message carries an OPk id.  The insertion at the remembered offset is
modelled with `take`/`drop` at that offset (the `reserve` call in the source
keeps the iterator valid across the `DH3` append). -/
def X3DH_receiverDerive (cs : CryptoSuite) (selfIkPriv : Nat)
    (selfDeviceId : List Nat) (spkPriv opkPriv : Nat) (msg : X3DHinitMsg)
    (senderDeviceId : List Nat) : ReceiverSessionData :=
  let F := List.replicate cs.dsaPubSize 255
  let DH1 := cs.dh spkPriv msg.Ik
  let HKDF_input := F ++ DH1
  let DH3 := cs.dh spkPriv msg.Ek
  let DH2pos := HKDF_input.length
  let HKDF_input := HKDF_input ++ DH3
  let DH2 := cs.dh selfIkPriv msg.Ek
  let HKDF_input := HKDF_input.take DH2pos ++ DH2 ++ HKDF_input.drop DH2pos
  let HKDF_input :=
    if msg.haveOPk then HKDF_input ++ cs.dh opkPriv msg.Ek else HKDF_input
  let SK := X3DH_HKDF cs.hmacSha512 HKDF_input cs.skInfo cs.skSize
  let AD_input := msg.Ik ++ cs.pubOf selfIkPriv ++ senderDeviceId ++ selfDeviceId
  let AD := X3DH_HKDF cs.hmacSha512 AD_input cs.adInfo cs.adSize
  { sk := SK, ad := AD }

/-- Modelled from the spec: the first extraction round and the first expansion
block of RFC 5869 HKDF (`T(1) = HMAC-Hash(PRK, T(0) || info || 0x01)` with
`T(0)` empty), truncated to the requested length; stated independently of the
source's `X3DH_HKDF` to compare the two. -/
def hkdf_extract (hmac : List Nat → List Nat → List Nat)
    (salt ikm : List Nat) : List Nat :=
  hmac salt ikm

/-- Modelled from the spec: first expansion block of RFC 5869, truncated. -/
def hkdf_expand_round1 (hmac : List Nat → List Nat → List Nat)
    (prk info : List Nat) (L : Nat) : List Nat :=
  (hmac prk (info ++ [1])).take L

/-- The 64-byte zero-filled salt used for all X3DH derivations. -/
def zeroSalt64 : List Nat := List.replicate 64 0

/-- A "valid" peer bundle: all public keys in it are genuine public halves of
the peer's private keys (`bIkPriv` identity, `spkPriv` signed prekey,
`opkPriv` one-time prekey); the OPk is present iff `useOPk`. -/
def bundleOf (cs : CryptoSuite) (bIkPriv spkPriv opkPriv spkId opkId : Nat)
    (useOPk : Bool) (bDev sig : List Nat) : X3DH_peerBundle :=
  { deviceId := bDev
    Ik := cs.pubOf bIkPriv
    SPk := cs.pubOf spkPriv
    SPk_id := spkId
    SPk_sig := sig
    OPk := if useOPk then some (cs.pubOf opkPriv, opkId) else none }

/-- Small executable stand-in for the external primitives: Diffie-Hellman in
the multiplicative group mod 251 with generator 5 (sharing 4-byte secrets),
a toy keyed hash, and a toy signature check (`sig = Ik ++ message`). -/
def toySuite : CryptoSuite :=
  { dsaPubSize := 4
    hmacSha512 := fun k m => ((k.sum + 2 * m.sum + m.length) % 256) :: k.take 3
    dh := fun s P => List.replicate 4 ((P.headD 0) ^ s % 251)
    pubOf := fun s => [5 ^ s % 251]
    verify := fun ik m sig => sig == ik ++ m
    skInfo := [83, 75]
    adInfo := [65, 68]
    skSize := 32
    adSize := 32 }


/-! ## Wire codec (`lime_x3dh_protocol.cpp`, namespace `x3dh_protocol`) -/

/-- `constexpr uint8_t X3DH_protocolVersion = 0x01`. -/
def X3DH_protocolVersion : Nat := 1

/-- `constexpr size_t X3DH_headerSize = 3`. -/
def X3DH_headerSize : Nat := 3

/-- `enum class x3dh_message_type` (the `unset_type = 0x00` member is only a
sentinel; a byte that decodes to no listed type makes the parser fail). -/
inductive x3dh_message_type
  | registerUser
  | deleteUser
  | postSPk
  | postOPks
  | getPeerBundle
  | peerBundle
  | error
deriving DecidableEq, Repr

/-- Byte values of the message types. -/
def msgTypeByte : x3dh_message_type → Nat
  | .registerUser => 1
  | .deleteUser => 2
  | .postSPk => 3
  | .postOPks => 4
  | .getPeerBundle => 5
  | .peerBundle => 6
  | .error => 255

/-- The `switch (body[1])` of `parseMessage_getType`: any byte other than the
seven listed message types is an invalid packet. -/
def decodeMsgTypeByte : Nat → Option x3dh_message_type
  | 1 => some .registerUser
  | 2 => some .deleteUser
  | 3 => some .postSPk
  | 4 => some .postOPks
  | 5 => some .getPeerBundle
  | 6 => some .peerBundle
  | 255 => some .error
  | _ => none

/-- `enum class x3dh_error_code`; `unset_error_code = 0xff` is the value the
caller initializes the out-parameter with, left in place for non-error
messages. -/
inductive x3dh_error_code
  | bad_content_type
  | bad_curve
  | missing_senderId
  | bad_x3dh_protocol_version
  | bad_size
  | user_already_in
  | user_not_found
  | db_error
  | bad_request
  | unset_error_code
deriving DecidableEq, Repr

/-- The `switch (body[X3DH_headerSize])` of `parseMessage_getType`: any byte
other than the nine listed error codes is an invalid packet. -/
def decodeErrorCodeByte : Nat → Option x3dh_error_code
  | 0 => some .bad_content_type
  | 1 => some .bad_curve
  | 2 => some .missing_senderId
  | 3 => some .bad_x3dh_protocol_version
  | 4 => some .bad_size
  | 5 => some .user_already_in
  | 6 => some .user_not_found
  | 7 => some .db_error
  | 8 => some .bad_request
  | _ => none

/-- Big-endian 16-bit write: `(n >> 8) & 0xFF` then `n & 0xFF`. -/
def encU16 (n : Nat) : List Nat := [n / 256 % 256, n % 256]

/-- Big-endian 32-bit write, four `(n >> k) & 0xFF` pushes. -/
def encU32 (n : Nat) : List Nat :=
  [n / 16777216 % 256, n / 65536 % 256, n / 256 % 256, n % 256]

/-- Big-endian 16-bit read `(hi << 8) | lo` (byte values, so `|` is `+`). -/
def decU16 (hi lo : Nat) : Nat := 256 * hi + lo

/-- Big-endian 32-bit read from four bytes. -/
def decU32 (b0 b1 b2 b3 : Nat) : Nat :=
  16777216 * b0 + 65536 * b1 + 256 * b2 + b3

/-- `X3DH_makeHeader`: `protocol version || message type || curve id`. -/
def X3DH_makeHeader (t : x3dh_message_type) (curveId : Nat) : List Nat :=
  [X3DH_protocolVersion, msgTypeByte t, curveId]

/-- `buildMessage_registerUser`: header followed by the identity public key. -/
def buildMessage_registerUser (curveId : Nat) (Ik : List Nat) : List Nat :=
  X3DH_makeHeader .registerUser curveId ++ Ik

/-- `buildMessage_deleteUser`: a bare header. -/
def buildMessage_deleteUser (curveId : Nat) : List Nat :=
  X3DH_makeHeader .deleteUser curveId

/-- `buildMessage_publishSPk`: header, SPk, signature, 4-byte SPk id. -/
def buildMessage_publishSPk (curveId : Nat) (SPk Sig : List Nat)
    (SPk_id : Nat) : List Nat :=
  X3DH_makeHeader .postSPk curveId ++ SPk ++ Sig ++ encU32 SPk_id

/-- `buildMessage_publishOPks`: header, 2-byte count, then `OPk || OPk_id`
for each key (the source indexes `OPks[i]`/`OPk_ids[i]` in parallel). -/
def buildMessage_publishOPks (curveId : Nat) (OPks : List (List Nat))
    (OPk_ids : List Nat) : List Nat :=
  X3DH_makeHeader .postOPks curveId ++ encU16 OPks.length ++
    (OPks.zip OPk_ids).foldl (fun acc ki => acc ++ ki.1 ++ encU32 ki.2) []

/-- `buildMessage_getPeerBundles` (`lime_x3dh_protocol.cpp` lines 153-174):
the 2-byte count is pushed from the ORIGINAL list size, and only afterwards
is the id list resized down to `0xFFFF` entries when it is longer (the
"truncate the request" warning branch); then each device id is written as
2-byte length plus bytes. -/
def buildMessage_getPeerBundles (curveId : Nat)
    (peer_device_ids : List (List Nat)) : List Nat :=
  let message := X3DH_makeHeader .getPeerBundle curveId ++
    encU16 peer_device_ids.length
  let ids := if peer_device_ids.length > 65535 then peer_device_ids.take 65535
    else peer_device_ids
  message ++ ids.foldl (fun acc did => acc ++ encU16 did.length ++ did) []

/-- `parseMessage_getType` (`lime_x3dh_protocol.cpp` lines 185-280): check
the 3-byte header (length, protocol version at `body[0]`, curve id at
`body[2]`), decode the message type from `body[1]`, and for an `error`
message additionally require and decode the 1-byte error code; `none` models
`return false` (the out-parameters are not produced).  The optional
diagnostic text after an error code is NOT length-checked or consumed.  The
callback invocations on the header-failure paths are diagnostics only and
are not modelled. -/
def parseMessage_getType (curveId : Nat) (body : List Nat) :
    Option (x3dh_message_type × x3dh_error_code) :=
  if body.length < X3DH_headerSize then none
  else if body.getD 0 0 ≠ X3DH_protocolVersion then none
  else if body.getD 2 0 ≠ curveId then none
  else
    match decodeMsgTypeByte (body.getD 1 0) with
    | none => none
    | some mt =>
      if mt = x3dh_message_type.error then
        if body.length < X3DH_headerSize + 1 then none
        else
          match decodeErrorCodeByte (body.getD X3DH_headerSize 0) with
          | none => none
          | some ec => some (mt, ec)
      else some (mt, x3dh_error_code.unset_error_code)

/-- Key/signature lengths of the curve instantiation (`ED<Curve>::keyLength()`,
`X<Curve>::keyLength()`, `Signature<Curve>::signatureLength()`). -/
structure CurveSizes where
  edLen : Nat
  xLen : Nat
  sigLen : Nat
deriving DecidableEq, Repr

/-- `(body.drop i).take n`: the `n` raw bytes at offset `i`, as read through
the simple pointers of the parser. -/
def readBytes (body : List Nat) (i n : Nat) : List Nat := (body.drop i).take n

/-- One iteration of the bundle loop of `parseMessage_getPeerBundles`
(`lime_x3dh_protocol.cpp` lines 313-360): length-check and read the 2-byte
device-id size, the device id, the OPk flag, then length-check the whole
fixed-size key block (`Ik || SPk || SPk_id || SPk_sig` plus `OPk || OPk_id`
when flagged) before reading it; returns the parsed bundle and the index
just past it, or `none` where the source clears the vector and returns
`false`. -/
def parseOneBundle (sz : CurveSizes) (body : List Nat) (index : Nat) :
    Option (X3DH_peerBundle × Nat) :=
  if body.length < index + 2 then none
  else
    let deviceIdSize := decU16 (body.getD index 0) (body.getD (index + 1) 0)
    if body.length < index + 2 + deviceIdSize + 1 then none
    else
      let deviceId := readBytes body (index + 2) deviceIdSize
      let haveOPk := body.getD (index + 2 + deviceIdSize) 0 ≠ 0
      let i0 := index + 2 + deviceIdSize + 1
      if body.length <
          i0 + sz.edLen + sz.xLen + sz.sigLen + 4 +
            (if haveOPk then sz.xLen + 4 else 0) then none
      else
        let Ik := readBytes body i0 sz.edLen
        let SPk := readBytes body (i0 + sz.edLen) sz.xLen
        let SPk_id := decU32 (body.getD (i0 + sz.edLen + sz.xLen) 0)
          (body.getD (i0 + sz.edLen + sz.xLen + 1) 0)
          (body.getD (i0 + sz.edLen + sz.xLen + 2) 0)
          (body.getD (i0 + sz.edLen + sz.xLen + 3) 0)
        let SPk_sig := readBytes body (i0 + sz.edLen + sz.xLen + 4) sz.sigLen
        let i1 := i0 + sz.edLen + sz.xLen + 4 + sz.sigLen
        if haveOPk then
          let OPk := readBytes body i1 sz.xLen
          let OPk_id := decU32 (body.getD (i1 + sz.xLen) 0)
            (body.getD (i1 + sz.xLen + 1) 0) (body.getD (i1 + sz.xLen + 2) 0)
            (body.getD (i1 + sz.xLen + 3) 0)
          some (⟨deviceId, Ik, SPk, SPk_id, SPk_sig, some (OPk, OPk_id)⟩,
            i1 + sz.xLen + 4)
        else
          some (⟨deviceId, Ik, SPk, SPk_id, SPk_sig, none⟩, i1)

/-- The `for` loop over the expected bundle count: on any per-bundle failure
the source clears `peersBundle` and returns `false`, modelled as `(false, [])`;
on completion it returns `true` with the accumulated vector. -/
def parseBundlesLoop (sz : CurveSizes) (body : List Nat) :
    Nat → Nat → List X3DH_peerBundle → Bool × List X3DH_peerBundle
  | _, 0, acc => (true, acc)
  | index, n + 1, acc =>
    match parseOneBundle sz body index with
    | none => (false, [])
    | some (b, index2) => parseBundlesLoop sz body index2 n (acc ++ [b])

/-- `parseMessage_getPeerBundles` (`lime_x3dh_protocol.cpp` lines 302-362):
clear the output, require at least a header plus the 2-byte bundle count,
read the count and loop; the loop never checks that the input ends at the
last counted bundle. -/
def parseMessage_getPeerBundles (sz : CurveSizes) (body : List Nat) :
    Bool × List X3DH_peerBundle :=
  if body.length < X3DH_headerSize + 2 then (false, [])
  else
    let peersBundleCount := decU16 (body.getD X3DH_headerSize 0)
      (body.getD (X3DH_headerSize + 1) 0)
    parseBundlesLoop sz body (X3DH_headerSize + 2) peersBundleCount []

/-- Modelled from the spec: the server-side encoder of one peerBundle entry
(`device_id_len(u16) || device_id || have_opk(u8) || Ik || SPk ||
spk_id(u32) || SPk_sig || (OPk || opk_id(u32))?`, OPk present iff
`have_opk != 0`); the server is not part of the provided sources. -/
def encodeBundleEntry (b : X3DH_peerBundle) : List Nat :=
  encU16 b.deviceId.length ++ b.deviceId ++
    [if b.OPk.isSome then 1 else 0] ++ b.Ik ++ b.SPk ++ encU32 b.SPk_id ++
    b.SPk_sig ++
    (match b.OPk with
     | some (opk, opkId) => opk ++ encU32 opkId
     | none => [])

/-- Modelled from the spec: the peerBundle message
`header || count(u16) || entry x count`. -/
def encodePeerBundleMsg (curveId : Nat) (bs : List X3DH_peerBundle) :
    List Nat :=
  X3DH_makeHeader .peerBundle curveId ++ encU16 bs.length ++
    (bs.map encodeBundleEntry).flatten

/-- Modelled from the spec: the error message
`header || error_code(u8) || message_utf8?`. -/
def encodeErrorMsg (curveId codeByte : Nat) (text : List Nat) : List Nat :=
  X3DH_makeHeader .error curveId ++ [codeByte] ++ text

/-- Well-formedness of a bundle with respect to the curve sizes: every field
has the length the wire format serializes for it, and the ids fit in their
integer widths. -/
def wfBundle (sz : CurveSizes) (b : X3DH_peerBundle) : Bool :=
  decide (b.deviceId.length < 65536) && b.Ik.length == sz.edLen &&
    b.SPk.length == sz.xLen && decide (b.SPk_id < 4294967296) &&
    b.SPk_sig.length == sz.sigLen &&
    (match b.OPk with
     | some (opk, opkId) => opk.length == sz.xLen &&
        decide (opkId < 4294967296)
     | none => true)

/-! ## Session cache and sender-session installation (`lime_x3dh.cpp`) -/

/-- A double-ratchet session object as constructed by `X3DH_init_sender_session`
(with an X3DH-init message) or `X3DH_init_receiver_session` (without): the
constructor arguments that determine it.  The ratchet internals are an
external collaborator. -/
structure DRSession where
  sk : List Nat
  ad : List Nat
  peerSPk : List Nat
  peerDid : Nat
  dbUid : Nat
  initMessage : Option X3DHinitMsg
deriving DecidableEq, Repr

/-- The error kinds thrown on the sender-session path: the
`BCTBX_EXCEPTION` on signature failure and the peer-identity conflict of the
local storage. -/
inductive limeError
  | bundle_signature_invalid
  | peer_identity_conflict
deriving DecidableEq, Repr

/-- The `Self`-owned mutable state touched by `X3DH_init_sender_session`:
the peer-device table of the local storage, the in-memory
`m_DR_sessions_cache`, and the persisted ratchet-session table (which the
function never writes: sessions go to the database only when the first
message is built, per the comment at `lime_x3dh.cpp` line 146). -/
structure LimeState where
  /-- peer-device rows `(deviceId, Ik)`; the row id is the list position. -/
  peers : List (List Nat × List Nat)
  /-- `m_DR_sessions_cache : map deviceId -> DR session` (unique keys). -/
  sessionsCache : List (List Nat × DRSession)
  /-- ratchet sessions persisted in local storage, keyed by peer row id. -/
  storedSessions : List (Nat × DRSession)
deriving DecidableEq, Repr

/-- Find a peer row by device id, returning `(row id, stored Ik)`. -/
def findPeer : List (List Nat × List Nat) → List Nat → Option (Nat × List Nat)
  | [], _ => none
  | (d, ik) :: rest, dev =>
    if d = dev then some (0, ik)
    else (findPeer rest dev).map (fun p => (p.1 + 1, p.2))

/-- Modelled from the spec: `store_peer(device_id, Ik) -> peer_did`,
idempotent on `(device_id, Ik)` and failing `peer_identity_conflict` when the
device is already known with a different `Ik` (spec section 4.3); the local
storage implementation is not among the provided sources. -/
def store_peerDevice (peers : List (List Nat × List Nat))
    (deviceId Ik : List Nat) :
    Except limeError (Nat × List (List Nat × List Nat)) :=
  match findPeer peers deviceId with
  | some (did, ik) =>
    if ik = Ik then .ok (did, peers) else .error .peer_identity_conflict
  | none => .ok (peers.length, peers ++ [(deviceId, Ik)])

/-- `m_DR_sessions_cache` lookup by device id. -/
def cacheLookup (cache : List (List Nat × DRSession)) (dev : List Nat) :
    Option DRSession :=
  (cache.find? (fun e => e.1 = dev)).map (·.2)

/-- `std::map::erase(key)`: drops the entry if present, no-op otherwise. -/
def cacheErase (cache : List (List Nat × DRSession)) (dev : List Nat) :
    List (List Nat × DRSession) :=
  cache.filter (fun e => ¬(e.1 = dev))

/-- `std::map::emplace(key, value)`: inserts only when the key is absent. -/
def cacheEmplace (cache : List (List Nat × DRSession)) (dev : List Nat)
    (s : DRSession) : List (List Nat × DRSession) :=
  if (cacheLookup cache dev).isSome then cache else cache ++ [(dev, s)]

/-- The sender-side `DR` session constructed at `lime_x3dh.cpp` line 154 from
the derivation output, `peerBundle.SPk`, the peer row id, `m_db_Uid` and the
X3DH-init message. -/
def mkSenderSession (out : SenderSessionData) (peerSPk : List Nat)
    (peerDid dbUid : Nat) : DRSession :=
  { sk := out.sk, ad := out.ad, peerSPk := peerSPk, peerDid := peerDid,
    dbUid := dbUid, initMessage := some out.initMsg }

/-- One iteration of the bundle loop of
`Lime<Curve>::X3DH_init_sender_session` (`lime_x3dh.cpp` lines 70-157):
verify the SPk signature under the peer's Ik (throwing
`bundle_signature_invalid` BEFORE any side effect for this bundle), store
the peer device, run the X3DH derivation, and install the new session into
the cache - erasing any cached session first when the bundle carries an OPk,
and keeping the cached one otherwise (`emplace` does nothing on an existing
key).  The persisted-session table is untouched: the new session goes to the
database only when the first message is built. -/
def X3DH_init_sender_step (cs : CryptoSuite) (selfIkPriv : Nat)
    (selfDeviceId : List Nat) (dbUid ekPriv : Nat) (st : LimeState)
    (b : X3DH_peerBundle) : Except limeError LimeState :=
  if ¬(cs.verify b.Ik b.SPk b.SPk_sig) then .error .bundle_signature_invalid
  else
    match store_peerDevice st.peers b.deviceId b.Ik with
    | .error e => .error e
    | .ok (peerDid, peers2) =>
      let out := X3DH_senderDerive cs selfIkPriv selfDeviceId ekPriv b
      let session := mkSenderSession out b.SPk peerDid dbUid
      let cache1 := if b.OPk.isSome then cacheErase st.sessionsCache b.deviceId
        else st.sessionsCache
      .ok { peers := peers2,
            sessionsCache := cacheEmplace cache1 b.deviceId session,
            storedSessions := st.storedSessions }

/-- `Lime<Curve>::X3DH_init_sender_session` over a vector of bundles: the
loop runs bundle by bundle; a thrown exception (signature failure or peer
conflict) aborts the remaining iterations while the side effects of the
already-processed bundles persist (the members of `this` were mutated in
place).  The fresh ephemeral keys drawn from `m_RNG` are the `eks` stream. -/
def X3DH_init_sender_session (cs : CryptoSuite) (selfIkPriv : Nat)
    (selfDeviceId : List Nat) (dbUid : Nat) :
    LimeState → List X3DH_peerBundle → List Nat →
      LimeState × Option limeError
  | st, [], _ => (st, none)
  | st, b :: rest, eks =>
    match X3DH_init_sender_step cs selfIkPriv selfDeviceId dbUid (eks.headD 0)
        st b with
    | .error e => (st, some e)
    | .ok st2 => X3DH_init_sender_session cs selfIkPriv selfDeviceId dbUid st2
        rest eks.tail

/-- The empty `Self` state. -/
def emptyLimeState : LimeState :=
  { peers := [], sessionsCache := [], storedSessions := [] }

/-- A bundle whose SPk signature verifies under the toy suite. -/
def goodBundleA : X3DH_peerBundle :=
  { deviceId := [1], Ik := [10], SPk := [20], SPk_id := 1,
    SPk_sig := [10, 20], OPk := none }

/-- A bundle whose SPk signature does NOT verify under the toy suite. -/
def badSigBundle : X3DH_peerBundle :=
  { deviceId := [2], Ik := [11], SPk := [21], SPk_id := 2,
    SPk_sig := [9], OPk := none }

/-- A second bundle whose SPk signature verifies under the toy suite. -/
def goodBundleB : X3DH_peerBundle :=
  { deviceId := [3], Ik := [12], SPk := [22], SPk_id := 3,
    SPk_sig := [12, 22], OPk := none }

/-- A valid bundle carrying an OPk, for the cache-policy witness. -/
def goodBundleOPk : X3DH_peerBundle :=
  { deviceId := [1], Ik := [10], SPk := [20], SPk_id := 1,
    SPk_sig := [10, 20], OPk := some ([30], 7) }

/-- An arbitrary cached (receiver-side) session for device `[1]`. -/
def cachedSessionA : DRSession :=
  { sk := [9], ad := [9], peerSPk := [9], peerDid := 0, dbUid := 0,
    initMessage := none }

/-! ## Registration state machine and response dispatch
(`lime_x3dh_protocol.cpp`, `Lime<Curve>::process_response`) -/

/-- `lime::network_state` as used by the registration machine in
`process_response`: after registering the user the state is `sendSPk`
(next: publish the SPk), then `sendOPk`, then `done`. -/
inductive network_state
  | sendSPk
  | sendOPk
  | done
deriving DecidableEq, Repr

/-- `lime::callbackReturn`. -/
inductive callbackReturn
  | success
  | fail
deriving DecidableEq, Repr

/-- Observable outcome of one `process_response` invocation for a
registration-flow `userData` (no queued encryption): whether the local user
row was deleted, the callback status fired (if any), the updated machine
state, the follow-up message posted to the server (if any), and whether the
response entered the peerBundle-processing branch. -/
structure RespOutcome where
  deletedLocalUser : Bool
  callback : Option callbackReturn
  nextState : Option network_state
  posted : Option x3dh_message_type
  bundleBranch : Bool
deriving DecidableEq, Repr

/-- The dispatch of `Lime<Curve>::process_response`
(`lime_x3dh_protocol.cpp` lines 434-509) after a 200 response whose weak
back-reference resolved, for a registration-flow `userData`:
* unparsable response: clean up, no local delete;
* `error` message: delete the local user ONLY when the code is
  `user_already_in` (line 444-446), then fail the callback;
* `peerBundle` message: enter the bundle-processing branch;
* expected machine transitions: `sendSPk` x `registerUser` posts the SPk,
  `sendOPk` x `postSPk` posts the OPks;
* ANY other message type falls into the final `else` ("we're done"): the
  callback fires `success` and nothing is deleted. -/
def process_response_reg (curveId : Nat) (state : network_state)
    (body : List Nat) : RespOutcome :=
  match parseMessage_getType curveId body with
  | none =>
    { deletedLocalUser := false, callback := none, nextState := none,
      posted := none, bundleBranch := false }
  | some (mt, ec) =>
    if mt = x3dh_message_type.error then
      { deletedLocalUser := ec = x3dh_error_code.user_already_in,
        callback := some .fail, nextState := none, posted := none,
        bundleBranch := false }
    else if mt = x3dh_message_type.peerBundle then
      { deletedLocalUser := false, callback := none, nextState := none,
        posted := none, bundleBranch := true }
    else if state = network_state.sendSPk ∧ mt = x3dh_message_type.registerUser
        then
      { deletedLocalUser := false, callback := none,
        nextState := some .sendOPk, posted := some .postSPk,
        bundleBranch := false }
    else if state = network_state.sendOPk ∧ mt = x3dh_message_type.postSPk then
      { deletedLocalUser := false, callback := none, nextState := some .done,
        posted := some .postOPks, bundleBranch := false }
    else
      { deletedLocalUser := false, callback := some .success,
        nextState := none, posted := none, bundleBranch := false }

/-- The guard at the top of `process_response` (`lime_x3dh_protocol.cpp`
lines 424-431): `userData->limeObj.lock()` yields the `Self` instance or
`nullptr`; when the instance is gone the callback context is deleted and the
function returns without touching any `Self`-owned state - modelled by the
`Option.map`, which produces no outcome at all for a dead reference. -/
def process_response_locked (curveId : Nat)
    (resolvedSelf : Option network_state) (body : List Nat) :
    Option RespOutcome :=
  resolvedSelf.map (fun st => process_response_reg curveId st body)

/-- An encryption request parked on `m_encryption_queue` behind the
outstanding bundle fetch. -/
structure EncryptionRequest where
  recipientUserId : List Nat
  requestId : Nat
deriving DecidableEq, Repr

/-- Completion status surfaced to a queued encryption. -/
inductive queuedStatus
  | success
  | fail
  | cancelled
deriving DecidableEq, Repr

/-- Modelled from the spec: destruction of the `Self` instance while a fetch
is outstanding (the `Lime` destructor is not among the provided sources);
per the spec's cancellation rule, every encryption queued in that state
completes with status `cancelled`. -/
def destroySelfWithQueue (queue : List EncryptionRequest) :
    List (EncryptionRequest × queuedStatus) :=
  queue.map (fun r => (r, .cancelled))

/-- Concrete valid bundle used to witness the sender/receiver agreement. -/
def C1wBundle : X3DH_peerBundle := bundleOf toySuite 4 6 7 9 11 true [66] [1, 2]

/-- Small concrete curve sizes used by the codec witnesses. -/
def toySizes : CurveSizes := { edLen := 2, xLen := 2, sigLen := 3 }

/-- A concrete well-formed bundle (with OPk) for the codec witnesses. -/
def codecBundle : X3DH_peerBundle :=
  { deviceId := [97], Ik := [1, 2], SPk := [3, 4], SPk_id := 9,
    SPk_sig := [5, 6, 7], OPk := some ([8, 9], 4) }

/-! ## Theorems -/
/-- Diffie-Hellman symmetry holds for the toy suite. -/
theorem toyDH_sym (a b : Nat) :
    toySuite.dh a (toySuite.pubOf b) = toySuite.dh b (toySuite.pubOf a) := by
  simp only [toySuite, List.headD]
  rw [← Nat.pow_mod, ← Nat.pow_mod, ← pow_mul, ← pow_mul, Nat.mul_comm]

/-- C1: for every valid peer bundle (with or without an OPk), the sender-side
derivation and the receiver-side derivation applied to the X3DH-init message
built from that bundle compute identical `SK` and `AD`; in particular the
receiver, although it computes DH3 before DH2, assembles its HKDF input in
the sender's order `F || DH1 || DH2 || DH3 [|| DH4]`.  The only assumption is
the Diffie-Hellman shared-secret symmetry of the underlying curve. -/
theorem x3dh_sender_receiver_agree (cs : CryptoSuite)
    (hsym : ∀ a b, cs.dh a (cs.pubOf b) = cs.dh b (cs.pubOf a))
    (aIkPriv ekPriv bIkPriv spkPriv opkPriv spkId opkId : Nat) (useOPk : Bool)
    (aDev bDev sig : List Nat) :
    (X3DH_senderDerive cs aIkPriv aDev ekPriv
        (bundleOf cs bIkPriv spkPriv opkPriv spkId opkId useOPk bDev sig)).sk =
      (X3DH_receiverDerive cs bIkPriv bDev spkPriv opkPriv
        (X3DH_senderDerive cs aIkPriv aDev ekPriv
          (bundleOf cs bIkPriv spkPriv opkPriv spkId opkId useOPk bDev sig)).initMsg
        aDev).sk ∧
    (X3DH_senderDerive cs aIkPriv aDev ekPriv
        (bundleOf cs bIkPriv spkPriv opkPriv spkId opkId useOPk bDev sig)).ad =
      (X3DH_receiverDerive cs bIkPriv bDev spkPriv opkPriv
        (X3DH_senderDerive cs aIkPriv aDev ekPriv
          (bundleOf cs bIkPriv spkPriv opkPriv spkId opkId useOPk bDev sig)).initMsg
        aDev).ad := by
  cases useOPk with
  | false =>
    constructor
    · simp only [X3DH_senderDerive, X3DH_receiverDerive, bundleOf, if_neg,
        Bool.false_eq_true, not_false_eq_true, ite_false, Option.isSome_none,
        List.take_left, List.drop_left]
      rw [hsym spkPriv aIkPriv, hsym bIkPriv ekPriv, hsym spkPriv ekPriv]
    · simp [X3DH_senderDerive, X3DH_receiverDerive, bundleOf]
  | true =>
    constructor
    · simp only [X3DH_senderDerive, X3DH_receiverDerive, bundleOf, if_pos,
        ite_true, Option.isSome_some, List.take_left, List.drop_left]
      rw [hsym spkPriv aIkPriv, hsym bIkPriv ekPriv, hsym spkPriv ekPriv,
        hsym opkPriv ekPriv]
    · simp [X3DH_senderDerive, X3DH_receiverDerive, bundleOf]


/-- Witness for C1: the agreement evaluated on the toy suite at concrete keys. -/
theorem x3dh_sender_receiver_agree_witness :
    (X3DH_senderDerive toySuite 2 [65] 3 C1wBundle).sk =
      (X3DH_receiverDerive toySuite 4 [66] 6 7
        (X3DH_senderDerive toySuite 2 [65] 3 C1wBundle).initMsg [65]).sk ∧
    (X3DH_senderDerive toySuite 2 [65] 3 C1wBundle).ad =
      (X3DH_receiverDerive toySuite 4 [66] 6 7
        (X3DH_senderDerive toySuite 2 [65] 3 C1wBundle).initMsg [65]).ad :=
  x3dh_sender_receiver_agree toySuite toyDH_sym 2 3 4 6 7 9 11 true [65] [66] [1, 2]

/-- C4: `X3DH_HKDF` is exactly one extraction round followed by the first
expansion block of RFC 5869 HKDF-SHA512 with a 64-byte zero-filled salt,
truncated to the requested output length. -/
theorem x3dh_hkdf_is_rfc5869_one_round (hmac : List Nat → List Nat → List Nat)
    (input info : List Nat) (L : Nat) :
    X3DH_HKDF hmac input info L =
      hkdf_expand_round1 hmac (hkdf_extract hmac zeroSalt64 input) info L := rfl


/-- `getD` reads the head of the corresponding `drop`. -/
theorem getD_eq_headD_drop (l : List Nat) (i : Nat) :
    l.getD i 0 = (l.drop i).headD 0 := by
  induction l generalizing i with
  | nil => simp
  | cons a t ih =>
    cases i with
    | zero => simp
    | succ j => simp only [List.getD_cons_succ, List.drop_succ_cons]; exact ih j

/-- Splitting a `drop` at an additive offset. -/
theorem drop_add_split (l : List Nat) (n m : Nat) :
    l.drop (n + m) = (l.drop n).drop m := by
  rw [List.drop_drop, Nat.add_comm]

/-- Decoding the two bytes written for a 16-bit value recovers it. -/
theorem decU16_encU16 (n : Nat) (h : n < 65536) :
    decU16 (n / 256 % 256) (n % 256) = n := by
  unfold decU16; omega

/-- Decoding the four bytes written for a 32-bit value recovers it. -/
theorem decU32_encU32 (n : Nat) (h : n < 4294967296) :
    decU32 (n / 16777216 % 256) (n / 65536 % 256) (n / 256 % 256) (n % 256) =
      n := by
  unfold decU32; omega

/-- Dropping one leading byte. -/
theorem drop_one_cons (a : Nat) (w : List Nat) : (a :: w).drop 1 = w := rfl

/-- Dropping two leading bytes. -/
theorem drop_two_cons (a b : Nat) (w : List Nat) : (a :: b :: w).drop 2 = w :=
  rfl

/-- Dropping three leading bytes. -/
theorem drop_three_cons (a b c : Nat) (w : List Nat) :
    (a :: b :: c :: w).drop 3 = w := rfl

/-- Dropping four leading bytes. -/
theorem drop_four_cons (a b c d : Nat) (w : List Nat) :
    (a :: b :: c :: d :: w).drop 4 = w := rfl

/-- `headD` of a nonempty list. -/
theorem headD_cons (a : Nat) (w : List Nat) : (a :: w).headD 0 = a := rfl

/-- `getD` of the head. -/
theorem getD_zero_cons (a : Nat) (w : List Nat) : (a :: w).getD 0 0 = a := rfl

/-- `getD` of the second element. -/
theorem getD_one_cons (a b : Nat) (w : List Nat) : (a :: b :: w).getD 1 0 = b :=
  rfl

/-- Parsing one encoded bundle entry at its start offset succeeds and
consumes exactly the entry. -/
theorem parseOneBundle_encodeBundleEntry (sz : CurveSizes)
    (pre : List Nat) (b : X3DH_peerBundle) (rest : List Nat)
    (hwf : wfBundle sz b = true) :
    parseOneBundle sz (pre ++ (encodeBundleEntry b ++ rest)) pre.length =
      some (b, pre.length + (encodeBundleEntry b).length) := by
  rcases b with ⟨dev, ik, spk, sid, sig, opk⟩
  rcases opk with _ | ⟨opkKey, opkId⟩
  · simp only [wfBundle, Bool.and_eq_true, decide_eq_true_eq, beq_iff_eq,
      Bool.and_true] at hwf
    obtain ⟨⟨⟨⟨hdev, hik⟩, hspk⟩, hsid⟩, hsig⟩ := hwf
    simp only [parseOneBundle, encodeBundleEntry, encU16, encU32,
      Option.isSome_none, Bool.false_eq_true, if_false, List.append_nil,
      List.cons_append, List.nil_append, List.append_assoc, Nat.zero_add,
      readBytes, getD_eq_headD_drop, drop_add_split, drop_one_cons,
      drop_two_cons, drop_three_cons, drop_four_cons, headD_cons,
      List.drop_zero, List.drop_left]
    rw [decU16_encU16 dev.length hdev]
    simp only [List.drop_left, List.take_left, List.take_left' hik,
      List.drop_left' hik, List.take_left' hspk, List.drop_left' hspk,
      List.take_left' hsig, List.drop_left' hsig, drop_one_cons,
      drop_two_cons, drop_three_cons, drop_four_cons, headD_cons,
      decU32_encU32 sid hsid, if_neg (show ¬((0 : Nat) ≠ 0) by omega)]
    simp only [List.length_append, List.length_cons, List.length_nil]
    split_ifs with h1 h2 h3
    · exact absurd h1 (by omega)
    · exact absurd h2 (by omega)
    · exact absurd h3 (by omega)
    · simp only [Option.some.injEq, Prod.mk.injEq, X3DH_peerBundle.mk.injEq,
        List.length_append, List.length_cons, List.length_nil]
      first
      | trivial
      | omega
      | (constructor
         · trivial
         · omega)
  · simp only [wfBundle, Bool.and_eq_true, decide_eq_true_eq, beq_iff_eq,
      Bool.and_true] at hwf
    obtain ⟨⟨⟨⟨⟨hdev, hik⟩, hspk⟩, hsid⟩, hsig⟩, hopk, hopkId⟩ := hwf
    simp only [parseOneBundle, encodeBundleEntry, encU16, encU32,
      Option.isSome_some, if_true, List.append_nil,
      List.cons_append, List.nil_append, List.append_assoc, Nat.zero_add,
      readBytes, getD_eq_headD_drop, drop_add_split, drop_one_cons,
      drop_two_cons, drop_three_cons, drop_four_cons, headD_cons,
      List.drop_zero, List.drop_left]
    rw [decU16_encU16 dev.length hdev]
    simp only [List.drop_left, List.take_left, List.take_left' hik,
      List.drop_left' hik, List.take_left' hspk, List.drop_left' hspk,
      List.take_left' hsig, List.drop_left' hsig, List.take_left' hopk,
      List.drop_left' hopk, drop_one_cons, drop_two_cons, drop_three_cons,
      drop_four_cons, headD_cons, decU32_encU32 sid hsid,
      decU32_encU32 opkId hopkId, if_pos (show (1 : Nat) ≠ 0 by omega)]
    simp only [List.length_append, List.length_cons, List.length_nil]
    split_ifs with h1 h2 h3
    · exact absurd h1 (by omega)
    · exact absurd h2 (by omega)
    · exact absurd h3 (by omega)
    · simp only [Option.some.injEq, Prod.mk.injEq, X3DH_peerBundle.mk.injEq,
        List.length_append, List.length_cons, List.length_nil]
      first
      | trivial
      | omega
      | (constructor
         · trivial
         · omega)


/-- An encoded bundle entry is never empty (it starts with the two
device-id-size bytes). -/
theorem encodeBundleEntry_ne_nil (b : X3DH_peerBundle) :
    encodeBundleEntry b ≠ [] := by
  simp [encodeBundleEntry, encU16]

/-- The concatenation of at least one encoded entry is never empty. -/
theorem flatten_entries_ne_nil (bs : List X3DH_peerBundle) (h : bs ≠ []) :
    (bs.map encodeBundleEntry).flatten ≠ [] := by
  cases bs with
  | nil => exact absurd rfl h
  | cons b rest =>
    simp only [List.map_cons, List.flatten_cons, ne_eq, List.append_eq_nil]
    intro hc
    exact encodeBundleEntry_ne_nil b hc.1

/-- The bundle loop parses a sequence of encoded entries back to the bundle
list, appending to the accumulator. -/
theorem parseBundlesLoop_encode (sz : CurveSizes) :
    ∀ (bs : List X3DH_peerBundle) (pre rest : List Nat)
      (acc : List X3DH_peerBundle),
      (∀ b ∈ bs, wfBundle sz b = true) →
      parseBundlesLoop sz (pre ++ ((bs.map encodeBundleEntry).flatten ++ rest))
        pre.length bs.length acc = (true, acc ++ bs) := by
  intro bs
  induction bs with
  | nil =>
    intro pre rest acc _
    simp [parseBundlesLoop]
  | cons b bs ih =>
    intro pre rest acc hwf
    have hb : wfBundle sz b = true := hwf b (by simp)
    have hbs : ∀ x ∈ bs, wfBundle sz x = true := fun x hx => hwf x (by simp [hx])
    simp only [List.map_cons, List.flatten_cons, List.length_cons,
      List.append_assoc]
    rw [parseBundlesLoop]
    simp only [parseOneBundle_encodeBundleEntry sz pre b
      ((bs.map encodeBundleEntry).flatten ++ rest) hb]
    have hre : pre ++ (encodeBundleEntry b ++
        ((bs.map encodeBundleEntry).flatten ++ rest)) =
        (pre ++ encodeBundleEntry b) ++
          ((bs.map encodeBundleEntry).flatten ++ rest) := by
      simp [List.append_assoc]
    have hlen : pre.length + (encodeBundleEntry b).length =
        (pre ++ encodeBundleEntry b).length := (List.length_append _ _).symm
    rw [hre, hlen, ih (pre ++ encodeBundleEntry b) rest (acc ++ [b]) hbs]
    simp


/-- Round-trip for peerBundle messages: parsing the encoding of any
well-formed bundle list yields exactly that list. -/
theorem parseMessage_getPeerBundles_roundtrip (sz : CurveSizes)
    (curveId : Nat) (bs : List X3DH_peerBundle)
    (hwf : ∀ b ∈ bs, wfBundle sz b = true) (hcount : bs.length < 65536) :
    parseMessage_getPeerBundles sz (encodePeerBundleMsg curveId bs) =
      (true, bs) := by
  have hloop := parseBundlesLoop_encode sz bs
    [1, 6, curveId, bs.length / 256 % 256, bs.length % 256] [] [] hwf
  simp only [List.append_nil, List.nil_append, List.length_cons,
    List.length_nil, List.cons_append] at hloop
  simp only [parseMessage_getPeerBundles, encodePeerBundleMsg,
    X3DH_makeHeader, msgTypeByte, X3DH_protocolVersion, X3DH_headerSize,
    encU16, List.cons_append, List.nil_append, List.append_assoc,
    getD_eq_headD_drop, drop_add_split, drop_one_cons, drop_three_cons,
    drop_four_cons, headD_cons]
  rw [decU16_encU16 bs.length hcount]
  rw [if_neg (by simp [List.length_cons]; try omega)]
  have h55 : (0 + 1 + 1 + 1 + 1 + 1 : Nat) = 3 + 2 := by norm_num
  rw [h55] at hloop
  exact hloop


/-- Parsing an encoded bundle entry whose last byte was cut off fails: the
length check over the fixed-size key block is one byte short. -/
theorem parseOneBundle_truncated (sz : CurveSizes) (hs : 0 < sz.sigLen)
    (pre : List Nat) (b : X3DH_peerBundle) (hwf : wfBundle sz b = true) :
    parseOneBundle sz (pre ++ (encodeBundleEntry b).dropLast) pre.length =
      none := by
  rcases b with ⟨dev, ik, spk, sid, sig, opk⟩
  rcases opk with _ | ⟨opkKey, opkId⟩
  · simp only [wfBundle, Bool.and_eq_true, decide_eq_true_eq, beq_iff_eq,
      Bool.and_true] at hwf
    obtain ⟨⟨⟨⟨hdev, hik⟩, hspk⟩, hsid⟩, hsig⟩ := hwf
    have hsne : sig ≠ [] := by
      intro hh
      rw [hh] at hsig
      simp at hsig
      omega
    have hdl : (encodeBundleEntry
        ⟨dev, ik, spk, sid, sig, none⟩).dropLast =
        encU16 dev.length ++ dev ++ [0] ++ ik ++ spk ++ encU32 sid ++
          sig.dropLast := by
      simp only [encodeBundleEntry, Option.isSome_none, Bool.false_eq_true,
        if_false, List.append_nil]
      rw [List.dropLast_append_of_ne_nil _ hsne]
    rw [hdl]
    simp only [parseOneBundle, encU16, encU32, List.append_nil,
      List.cons_append, List.nil_append, List.append_assoc, Nat.zero_add,
      readBytes, getD_eq_headD_drop, drop_add_split, drop_one_cons,
      drop_two_cons, drop_three_cons, drop_four_cons, headD_cons,
      List.drop_zero, List.drop_left]
    rw [decU16_encU16 dev.length hdev]
    simp only [List.drop_left, List.take_left, List.take_left' hik,
      List.drop_left' hik, List.take_left' hspk, List.drop_left' hspk,
      drop_one_cons, drop_two_cons, drop_three_cons, drop_four_cons,
      headD_cons, if_neg (show ¬((0 : Nat) ≠ 0) by omega)]
    simp only [List.length_append, List.length_cons, List.length_nil,
      List.length_dropLast]
    split_ifs with h1 h2 h3
    · rfl
    · rfl
    · rfl
    · exfalso
      apply h3
      omega
  · simp only [wfBundle, Bool.and_eq_true, decide_eq_true_eq, beq_iff_eq,
      Bool.and_true] at hwf
    obtain ⟨⟨⟨⟨⟨hdev, hik⟩, hspk⟩, hsid⟩, hsig⟩, hopk, hopkId⟩ := hwf
    have hone : opkKey ++ encU32 opkId ≠ [] := by simp [encU32]
    have htail : (opkKey ++ encU32 opkId).dropLast =
        opkKey ++ [opkId / 16777216 % 256, opkId / 65536 % 256,
          opkId / 256 % 256] := by
      rw [List.dropLast_append_of_ne_nil _ (by simp [encU32] :
        encU32 opkId ≠ [])]
      rfl
    have hdl : (encodeBundleEntry
        ⟨dev, ik, spk, sid, sig, some (opkKey, opkId)⟩).dropLast =
        encU16 dev.length ++ dev ++ [1] ++ ik ++ spk ++ encU32 sid ++ sig ++
          (opkKey ++ [opkId / 16777216 % 256, opkId / 65536 % 256,
            opkId / 256 % 256]) := by
      simp only [encodeBundleEntry, Option.isSome_some, if_true]
      rw [List.dropLast_append_of_ne_nil _ hone, htail]
    rw [hdl]
    simp only [parseOneBundle, encU16, encU32, List.append_nil,
      List.cons_append, List.nil_append, List.append_assoc, Nat.zero_add,
      readBytes, getD_eq_headD_drop, drop_add_split, drop_one_cons,
      drop_two_cons, drop_three_cons, drop_four_cons, headD_cons,
      List.drop_zero, List.drop_left]
    rw [decU16_encU16 dev.length hdev]
    simp only [List.drop_left, List.take_left, List.take_left' hik,
      List.drop_left' hik, List.take_left' hspk, List.drop_left' hspk,
      List.take_left' hsig, List.drop_left' hsig, drop_one_cons,
      drop_two_cons, drop_three_cons, drop_four_cons, headD_cons,
      if_pos (show (1 : Nat) ≠ 0 by omega)]
    simp only [List.length_append, List.length_cons, List.length_nil]
    split_ifs with h1 h2 h3
    · rfl
    · rfl
    · rfl
    · exfalso
      apply h3
      omega


/-- The bundle loop on a truncated entry sequence fails with a cleared
output. -/
theorem parseBundlesLoop_truncated (sz : CurveSizes) (hs : 0 < sz.sigLen) :
    ∀ (bs : List X3DH_peerBundle) (pre : List Nat)
      (acc : List X3DH_peerBundle), bs ≠ [] →
      (∀ b ∈ bs, wfBundle sz b = true) →
      parseBundlesLoop sz
        (pre ++ ((bs.map encodeBundleEntry).flatten).dropLast)
        pre.length bs.length acc = (false, []) := by
  intro bs
  induction bs with
  | nil => intro pre acc hne _; exact absurd rfl hne
  | cons b bs ih =>
    intro pre acc _ hwf
    have hb : wfBundle sz b = true := hwf b (by simp)
    have hbs : ∀ x ∈ bs, wfBundle sz x = true := fun x hx => hwf x (by simp [hx])
    cases bs with
    | nil =>
      simp only [List.map_cons, List.map_nil, List.flatten_cons,
        List.flatten_nil, List.append_nil, List.length_cons, List.length_nil]
      rw [parseBundlesLoop]
      rw [parseOneBundle_truncated sz hs pre b hb]
    | cons b2 bs2 =>
      have hfne : encodeBundleEntry b2 ++
          (List.map encodeBundleEntry bs2).flatten ≠ [] := by
        intro h
        exact encodeBundleEntry_ne_nil b2 (List.append_eq_nil.mp h).1
      simp only [List.map_cons, List.flatten_cons, List.length_cons]
      rw [List.dropLast_append_of_ne_nil _ hfne]
      rw [parseBundlesLoop]
      simp only [parseOneBundle_encodeBundleEntry sz pre b
        ((encodeBundleEntry b2 ++
          (List.map encodeBundleEntry bs2).flatten).dropLast) hb]
      have hre : pre ++ (encodeBundleEntry b ++
          (encodeBundleEntry b2 ++
            (List.map encodeBundleEntry bs2).flatten).dropLast) =
          (pre ++ encodeBundleEntry b) ++
            (encodeBundleEntry b2 ++
              (List.map encodeBundleEntry bs2).flatten).dropLast := by
        simp [List.append_assoc]
      have hlen : pre.length + (encodeBundleEntry b).length =
          (pre ++ encodeBundleEntry b).length := (List.length_append _ _).symm
      rw [hre, hlen]
      have := ih (pre ++ encodeBundleEntry b) (acc ++ [b]) (by simp) hbs
      simp only [List.map_cons, List.flatten_cons, List.length_cons] at this
      exact this


/-- Cutting the last byte off an encoded peerBundle message makes the parser
fail with an empty output vector. -/
theorem parseMessage_getPeerBundles_truncated (sz : CurveSizes)
    (hs : 0 < sz.sigLen) (curveId : Nat) (bs : List X3DH_peerBundle)
    (hwf : ∀ b ∈ bs, wfBundle sz b = true) (hcount : bs.length < 65536) :
    parseMessage_getPeerBundles sz ((encodePeerBundleMsg curveId bs).dropLast)
      = (false, []) := by
  cases bs with
  | nil =>
    simp [parseMessage_getPeerBundles, encodePeerBundleMsg, encU16,
      X3DH_makeHeader, msgTypeByte, X3DH_protocolVersion, X3DH_headerSize]
  | cons b bs2 =>
    have hfne : (((b :: bs2).map encodeBundleEntry)).flatten ≠ [] :=
      flatten_entries_ne_nil _ (by simp)
    have hflen : 0 < (((b :: bs2).map encodeBundleEntry)).flatten.length :=
      List.length_pos.mpr hfne
    have hloop := parseBundlesLoop_truncated sz hs (b :: bs2)
      [1, 6, curveId, (b :: bs2).length / 256 % 256,
        (b :: bs2).length % 256] [] (by simp) hwf
    simp only [List.length_cons, List.length_nil] at hloop
    simp only [encodePeerBundleMsg, X3DH_makeHeader, msgTypeByte,
      X3DH_protocolVersion, encU16]
    rw [show ([1, 6, curveId] ++
        [(b :: bs2).length / 256 % 256, (b :: bs2).length % 256] ++
        ((b :: bs2).map encodeBundleEntry).flatten :
        List Nat) =
      ([1, 6, curveId] ++ [(b :: bs2).length / 256 % 256,
        (b :: bs2).length % 256]) ++
        ((b :: bs2).map encodeBundleEntry).flatten from by
      simp [List.append_assoc]]
    rw [List.dropLast_append_of_ne_nil _ hfne]
    simp only [parseMessage_getPeerBundles, X3DH_headerSize,
      List.cons_append, List.nil_append, getD_eq_headD_drop, drop_add_split,
      drop_one_cons, drop_three_cons, drop_four_cons, headD_cons]
    rw [decU16_encU16 (b :: bs2).length hcount]
    rw [if_neg (by
      simp only [List.length_cons, List.length_dropLast]
      omega)]
    have h55 : (0 + 1 + 1 + 1 + 1 + 1 : Nat) = 3 + 2 := by norm_num
    rw [h55] at hloop
    exact hloop

/-- Whenever the bundle loop reports failure its output vector is empty (the
source clears `peersBundle` on every failing exit). -/
theorem parseBundlesLoop_false_empty (sz : CurveSizes) (body : List Nat) :
    ∀ (n index : Nat) (acc : List X3DH_peerBundle),
      (parseBundlesLoop sz body index n acc).1 = false →
      (parseBundlesLoop sz body index n acc).2 = [] := by
  intro n
  induction n with
  | zero =>
    intro index acc h
    simp [parseBundlesLoop] at h
  | succ m ih =>
    intro index acc h
    rw [parseBundlesLoop] at h ⊢
    cases hp : parseOneBundle sz body index with
    | none => rfl
    | some r =>
      obtain ⟨b2, idx2⟩ := r
      rw [hp] at h
      exact ih idx2 (acc ++ [b2]) h

/-- Whenever `parseMessage_getPeerBundles` returns `false` its output bundle
vector is empty. -/
theorem parseMessage_getPeerBundles_false_empty (sz : CurveSizes)
    (body : List Nat)
    (h : (parseMessage_getPeerBundles sz body).1 = false) :
    (parseMessage_getPeerBundles sz body).2 = [] := by
  unfold parseMessage_getPeerBundles at h ⊢
  split_ifs at h ⊢ with h1
  · rfl
  · exact parseBundlesLoop_false_empty sz body _ _ _ h


/-- `getD` within the original list is unchanged by appending a suffix. -/
theorem getD_append_lt (l l2 : List Nat) (k : Nat) (hk : k < l.length) :
    (l ++ l2).getD k 0 = l.getD k 0 :=
  List.getD_append l l2 0 k hk

/-- An in-bounds raw read is unchanged by appending a suffix. -/
theorem readBytes_append_of_le (l l2 : List Nat) (i n : Nat)
    (hn : i + n ≤ l.length) :
    readBytes (l ++ l2) i n = readBytes l i n := by
  unfold readBytes
  rw [List.drop_append_of_le_length (by omega),
    List.take_append_of_le_length (by simp [List.length_drop]; omega)]


/-- A successful single-bundle parse is unchanged by appending extra bytes:
every read it performed was bounds-checked against the original length. -/
theorem parseOneBundle_mono (sz : CurveSizes) (body extra : List Nat)
    (index : Nat) (r : X3DH_peerBundle × Nat)
    (h : parseOneBundle sz body index = some r) :
    parseOneBundle sz (body ++ extra) index = some r := by
  simp only [parseOneBundle] at h ⊢
  split_ifs at h with h1 h2 h3 h4
  · rw [getD_append_lt body extra index (by omega),
      getD_append_lt body extra (index + 1) (by omega)]
    set D := decU16 (body.getD index 0) (body.getD (index + 1) 0) with hD
    rw [if_neg (show ¬((body ++ extra).length < index + 2) by
        rw [List.length_append]; omega)]
    rw [if_neg (show ¬((body ++ extra).length < index + 2 + D + 1) by
        rw [List.length_append]; omega)]
    rw [readBytes_append_of_le body extra (index + 2) D (by omega)]
    rw [getD_append_lt body extra (index + 2 + D) (by omega)]
    simp only [if_pos h3]
    rw [if_neg (show ¬((body ++ extra).length <
        index + 2 + D + 1 + sz.edLen + sz.xLen + sz.sigLen + 4 +
          (sz.xLen + 4)) by rw [List.length_append]; omega)]
    rw [readBytes_append_of_le body extra (index + 2 + D + 1) sz.edLen
        (by omega),
      readBytes_append_of_le body extra (index + 2 + D + 1 + sz.edLen)
        sz.xLen (by omega),
      getD_append_lt body extra (index + 2 + D + 1 + sz.edLen + sz.xLen)
        (by omega),
      getD_append_lt body extra (index + 2 + D + 1 + sz.edLen + sz.xLen + 1)
        (by omega),
      getD_append_lt body extra (index + 2 + D + 1 + sz.edLen + sz.xLen + 2)
        (by omega),
      getD_append_lt body extra (index + 2 + D + 1 + sz.edLen + sz.xLen + 3)
        (by omega),
      readBytes_append_of_le body extra
        (index + 2 + D + 1 + sz.edLen + sz.xLen + 4) sz.sigLen (by omega),
      readBytes_append_of_le body extra
        (index + 2 + D + 1 + sz.edLen + sz.xLen + 4 + sz.sigLen) sz.xLen
        (by omega),
      getD_append_lt body extra
        (index + 2 + D + 1 + sz.edLen + sz.xLen + 4 + sz.sigLen + sz.xLen)
        (by omega),
      getD_append_lt body extra
        (index + 2 + D + 1 + sz.edLen + sz.xLen + 4 + sz.sigLen + sz.xLen + 1)
        (by omega),
      getD_append_lt body extra
        (index + 2 + D + 1 + sz.edLen + sz.xLen + 4 + sz.sigLen + sz.xLen + 2)
        (by omega),
      getD_append_lt body extra
        (index + 2 + D + 1 + sz.edLen + sz.xLen + 4 + sz.sigLen + sz.xLen + 3)
        (by omega)]
    exact h
  · rw [getD_append_lt body extra index (by omega),
      getD_append_lt body extra (index + 1) (by omega)]
    set D := decU16 (body.getD index 0) (body.getD (index + 1) 0) with hD
    rw [if_neg (show ¬((body ++ extra).length < index + 2) by
        rw [List.length_append]; omega)]
    rw [if_neg (show ¬((body ++ extra).length < index + 2 + D + 1) by
        rw [List.length_append]; omega)]
    rw [readBytes_append_of_le body extra (index + 2) D (by omega)]
    rw [getD_append_lt body extra (index + 2 + D) (by omega)]
    simp only [if_neg h3]
    rw [if_neg (show ¬((body ++ extra).length <
        index + 2 + D + 1 + sz.edLen + sz.xLen + sz.sigLen + 4 + 0) by
        rw [List.length_append]; omega)]
    rw [readBytes_append_of_le body extra (index + 2 + D + 1) sz.edLen
        (by omega),
      readBytes_append_of_le body extra (index + 2 + D + 1 + sz.edLen)
        sz.xLen (by omega),
      getD_append_lt body extra (index + 2 + D + 1 + sz.edLen + sz.xLen)
        (by omega),
      getD_append_lt body extra (index + 2 + D + 1 + sz.edLen + sz.xLen + 1)
        (by omega),
      getD_append_lt body extra (index + 2 + D + 1 + sz.edLen + sz.xLen + 2)
        (by omega),
      getD_append_lt body extra (index + 2 + D + 1 + sz.edLen + sz.xLen + 3)
        (by omega),
      readBytes_append_of_le body extra
        (index + 2 + D + 1 + sz.edLen + sz.xLen + 4) sz.sigLen (by omega)]
    exact h


/-- A successful bundle loop is unchanged by appending extra bytes. -/
theorem parseBundlesLoop_mono (sz : CurveSizes) (body extra : List Nat) :
    ∀ (n index : Nat) (acc res : List X3DH_peerBundle),
      parseBundlesLoop sz body index n acc = (true, res) →
      parseBundlesLoop sz (body ++ extra) index n acc = (true, res) := by
  intro n
  induction n with
  | zero => intro index acc res h; exact h
  | succ m ih =>
    intro index acc res h
    rw [parseBundlesLoop] at h ⊢
    cases hp : parseOneBundle sz body index with
    | none =>
      rw [hp] at h
      simp at h
    | some r =>
      obtain ⟨b2, idx2⟩ := r
      rw [hp] at h
      rw [parseOneBundle_mono sz body extra index _ hp]
      exact ih idx2 (acc ++ [b2]) res h

/-- C10 core: a byte string that parses successfully as a peerBundle message
parses to the same bundles after appending any extra bytes - the parser
reads exactly the counted bundles and never checks that the input ends. -/
theorem parseMessage_getPeerBundles_mono (sz : CurveSizes)
    (body extra : List Nat) (res : List X3DH_peerBundle)
    (h : parseMessage_getPeerBundles sz body = (true, res)) :
    parseMessage_getPeerBundles sz (body ++ extra) = (true, res) := by
  unfold parseMessage_getPeerBundles at h ⊢
  simp only [X3DH_headerSize] at h ⊢
  split_ifs at h with h1
  · simp at h
  · rw [if_neg (show ¬((body ++ extra).length < 3 + 2) by
      rw [List.length_append]; omega)]
    rw [getD_append_lt body extra 3 (by omega),
      getD_append_lt body extra (3 + 1) (by omega)]
    exact parseBundlesLoop_mono sz body extra _ _ _ _ h


/-- `getD` of the third element. -/
theorem getD_two_cons (a b c : Nat) (w : List Nat) :
    (a :: b :: c :: w).getD 2 0 = c := rfl

/-- Every message built by the client-side builders is accepted by
`parseMessage_getType` and classified with its own message type (these
messages are not of type `error`, so the error code stays unset). -/
theorem parseMessage_getType_makeHeader (curveId : Nat)
    (t : x3dh_message_type) (payload : List Nat)
    (ht : t ≠ x3dh_message_type.error) :
    parseMessage_getType curveId (X3DH_makeHeader t curveId ++ payload) =
      some (t, x3dh_error_code.unset_error_code) := by
  cases t
  all_goals first
  | exact absurd rfl ht
  | simp [parseMessage_getType, X3DH_makeHeader, X3DH_protocolVersion,
      X3DH_headerSize, msgTypeByte, decodeMsgTypeByte, getD_zero_cons,
      getD_one_cons, getD_two_cons, List.cons_append]


/-- C3 (amended): the round-trip and truncation guarantees hold where the
client-side parsers enforce length checks, but not for the unframed error
text: (1) parsing the encoding of any well-formed bundle list yields it
back; (2) a single-byte truncation of an encoded peerBundle message makes
`parseMessage_getPeerBundles` fail; (3) whenever that parser returns `false`
its output vector is empty; (4-8) every message built by the five client
builders is classified by `parseMessage_getType` as its own type.  (The
truncation guarantee does NOT extend to error messages carrying diagnostic
text - see the counterexample.) -/
theorem peerBundle_codec_guarantees :
    (∀ (sz : CurveSizes) (curveId : Nat) (bs : List X3DH_peerBundle),
      (∀ b ∈ bs, wfBundle sz b = true) → bs.length < 65536 →
      parseMessage_getPeerBundles sz (encodePeerBundleMsg curveId bs) =
        (true, bs)) ∧
    (∀ (sz : CurveSizes) (curveId : Nat) (bs : List X3DH_peerBundle),
      0 < sz.sigLen → (∀ b ∈ bs, wfBundle sz b = true) →
      bs.length < 65536 →
      parseMessage_getPeerBundles sz
        ((encodePeerBundleMsg curveId bs).dropLast) = (false, [])) ∧
    (∀ (sz : CurveSizes) (body : List Nat),
      (parseMessage_getPeerBundles sz body).1 = false →
      (parseMessage_getPeerBundles sz body).2 = []) ∧
    (∀ (curveId : Nat) (Ik : List Nat),
      parseMessage_getType curveId (buildMessage_registerUser curveId Ik) =
        some (x3dh_message_type.registerUser,
          x3dh_error_code.unset_error_code)) ∧
    (∀ curveId : Nat,
      parseMessage_getType curveId (buildMessage_deleteUser curveId) =
        some (x3dh_message_type.deleteUser,
          x3dh_error_code.unset_error_code)) ∧
    (∀ (curveId : Nat) (SPk Sig : List Nat) (SPk_id : Nat),
      parseMessage_getType curveId
          (buildMessage_publishSPk curveId SPk Sig SPk_id) =
        some (x3dh_message_type.postSPk,
          x3dh_error_code.unset_error_code)) ∧
    (∀ (curveId : Nat) (OPks : List (List Nat)) (OPk_ids : List Nat),
      parseMessage_getType curveId
          (buildMessage_publishOPks curveId OPks OPk_ids) =
        some (x3dh_message_type.postOPks,
          x3dh_error_code.unset_error_code)) ∧
    (∀ (curveId : Nat) (ids : List (List Nat)),
      parseMessage_getType curveId
          (buildMessage_getPeerBundles curveId ids) =
        some (x3dh_message_type.getPeerBundle,
          x3dh_error_code.unset_error_code)) := by
  refine ⟨?_, ?_, ?_, ?_, ?_, ?_, ?_, ?_⟩
  · intro sz curveId bs hwf hc
    exact parseMessage_getPeerBundles_roundtrip sz curveId bs hwf hc
  · intro sz curveId bs hs hwf hc
    exact parseMessage_getPeerBundles_truncated sz hs curveId bs hwf hc
  · intro sz body h
    exact parseMessage_getPeerBundles_false_empty sz body h
  · intro curveId Ik
    exact parseMessage_getType_makeHeader curveId _ Ik (by simp)
  · intro curveId
    have := parseMessage_getType_makeHeader curveId
      x3dh_message_type.deleteUser [] (by simp)
    simpa [buildMessage_deleteUser] using this
  · intro curveId SPk Sig SPk_id
    have := parseMessage_getType_makeHeader curveId
      x3dh_message_type.postSPk (SPk ++ Sig ++ encU32 SPk_id) (by simp)
    simpa [buildMessage_publishSPk, List.append_assoc] using this
  · intro curveId OPks OPk_ids
    have := parseMessage_getType_makeHeader curveId
      x3dh_message_type.postOPks (encU16 OPks.length ++
        (OPks.zip OPk_ids).foldl (fun acc ki => acc ++ ki.1 ++ encU32 ki.2) [])
      (by simp)
    simpa [buildMessage_publishOPks, List.append_assoc] using this
  · intro curveId ids
    have := parseMessage_getType_makeHeader curveId
      x3dh_message_type.getPeerBundle (encU16 ids.length ++
        (if ids.length > 65535 then ids.take 65535 else ids).foldl
          (fun acc did => acc ++ encU16 did.length ++ did) []) (by simp)
    simpa [buildMessage_getPeerBundles, List.append_assoc] using this

/-- C3 counterexample: a single-byte truncation of an error message that
carries a nonempty diagnostic text is NOT detected by
`parseMessage_getType` - the text is unframed, so the parse still succeeds
with the same type and code. -/
theorem truncated_error_message_still_parses :
    parseMessage_getType 1 ((encodeErrorMsg 1 4 [65, 66]).dropLast) =
      some (x3dh_message_type.error, x3dh_error_code.bad_size) := by decide


/-- Witness for C3: the codec guarantees evaluated at a concrete bundle. -/
theorem peerBundle_codec_guarantees_witness :
    parseMessage_getPeerBundles toySizes (encodePeerBundleMsg 1 [codecBundle])
      = (true, [codecBundle]) ∧
    parseMessage_getPeerBundles toySizes
      ((encodePeerBundleMsg 1 [codecBundle]).dropLast) = (false, []) :=
  ⟨peerBundle_codec_guarantees.1 toySizes 1 [codecBundle] (by decide)
      (by decide),
    peerBundle_codec_guarantees.2.1 toySizes 1 [codecBundle] (by decide)
      (by decide) (by decide)⟩

/-- C10: if a byte string parses successfully as a peerBundle message, then
appending any suffix of extra bytes parses successfully to exactly the same
bundles - the parser reads precisely the counted entries and never checks
that the input ends there. -/
theorem peerBundle_parse_ignores_trailing_bytes (sz : CurveSizes)
    (body extra : List Nat) (res : List X3DH_peerBundle)
    (h : parseMessage_getPeerBundles sz body = (true, res)) :
    parseMessage_getPeerBundles sz (body ++ extra) = (true, res) :=
  parseMessage_getPeerBundles_mono sz body extra res h

/-- Witness for C10: a concrete message with one trailing byte appended. -/
theorem peerBundle_parse_ignores_trailing_bytes_witness :
    parseMessage_getPeerBundles toySizes
      (encodePeerBundleMsg 1 [codecBundle] ++ [42]) = (true, [codecBundle]) :=
  peerBundle_parse_ignores_trailing_bytes toySizes
    (encodePeerBundleMsg 1 [codecBundle]) [42] [codecBundle] (by decide)


/-- The device-id serialization loop over `n` copies of the one-byte id
`[97]` produces `n` three-byte blocks `[0, 1, 97]`. -/
theorem foldl_entries_replicate (n : Nat) :
    ∀ acc : List Nat,
      (List.replicate n ([97] : List Nat)).foldl
        (fun acc did => acc ++ encU16 did.length ++ did) acc =
      acc ++ (List.replicate n ([0, 1, 97] : List Nat)).flatten := by
  induction n with
  | zero => intro acc; simp
  | succ m ih =>
    intro acc
    rw [List.replicate_succ, List.foldl_cons, ih]
    have he : encU16 ([97] : List Nat).length = [0, 1] := by
      norm_num [encU16]
    rw [he, List.replicate_succ, List.flatten_cons]
    simp [List.append_assoc]

/-- When more than `0xFFFF` bundles are requested, the count bytes are
written from the original (overflowing) size and only the id list itself is
truncated. -/
theorem buildMessage_getPeerBundles_overflow (curveId : Nat)
    (ids : List (List Nat)) (h : ids.length > 65535) :
    buildMessage_getPeerBundles curveId ids =
      [1, 5, curveId] ++ encU16 ids.length ++
        (ids.take 65535).foldl
          (fun acc did => acc ++ encU16 did.length ++ did) [] := by
  simp only [buildMessage_getPeerBundles, X3DH_makeHeader, msgTypeByte,
    X3DH_protocolVersion]
  rw [if_pos h]

/-- C9 (code bug): requesting 65536 device ids writes a count field of 0
(the low 16 bits of the original size, pushed BEFORE the truncation) while
65535 three-byte id entries are serialized after it - the count field does
not match the number of serialized entries. -/
theorem getPeerBundles_count_field_mismatch :
    buildMessage_getPeerBundles 1 (List.replicate 65536 [97]) =
      [1, 5, 1, 0, 0] ++ (List.replicate 65535 ([0, 1, 97] : List Nat)).flatten
    ∧ decU16 ((buildMessage_getPeerBundles 1
        (List.replicate 65536 [97])).getD 3 0)
      ((buildMessage_getPeerBundles 1 (List.replicate 65536 [97])).getD 4 0)
      = 0
    ∧ (List.replicate 65535 ([0, 1, 97] : List Nat)).length = 65535 := by
  have hlen : (List.replicate 65536 ([97] : List Nat)).length = 65536 :=
    List.length_replicate 65536 [97]
  have hm : buildMessage_getPeerBundles 1 (List.replicate 65536 [97]) =
      [1, 5, 1, 0, 0] ++
        (List.replicate 65535 ([0, 1, 97] : List Nat)).flatten := by
    rw [buildMessage_getPeerBundles_overflow 1 (List.replicate 65536 [97])
      (by rw [hlen]; norm_num)]
    rw [hlen]
    rw [List.take_replicate]
    rw [show min 65535 65536 = 65535 from by norm_num]
    rw [foldl_entries_replicate 65535 []]
    rw [show encU16 65536 = [0, 0] from by norm_num [encU16]]
    rw [List.nil_append]
    rfl
  refine ⟨hm, ?_, List.length_replicate 65535 [0, 1, 97]⟩
  rw [hm, getD_append_lt _ _ 3 (by decide), getD_append_lt _ _ 4 (by decide)]
  rfl


/-- C2 (amended): a bundle whose SPk signature fails verification is
rejected with `bundle_signature_invalid` BEFORE any side effect for that
bundle (no peer row, no session, no cache entry), but the thrown exception
aborts the whole batch: the final state is exactly the state after the
successfully processed prefix, so the bundles after the failing one are NOT
processed and get no sessions. -/
theorem sender_session_sig_fail_aborts_batch (cs : CryptoSuite) (ikp : Nat)
    (dev : List Nat) (dbUid : Nat) (st st2 : LimeState)
    (pre post : List X3DH_peerBundle) (b : X3DH_peerBundle) (eks : List Nat)
    (hpre : X3DH_init_sender_session cs ikp dev dbUid st pre eks = (st2, none))
    (hbad : cs.verify b.Ik b.SPk b.SPk_sig = false) :
    X3DH_init_sender_session cs ikp dev dbUid st (pre ++ b :: post) eks =
      (st2, some limeError.bundle_signature_invalid) := by
  induction pre generalizing st eks with
  | nil =>
    simp only [X3DH_init_sender_session, Prod.mk.injEq] at hpre
    obtain ⟨rfl, -⟩ := hpre
    simp only [List.nil_append, X3DH_init_sender_session]
    rw [X3DH_init_sender_step, if_pos (by simp [hbad])]
  | cons p pre ih =>
    rw [List.cons_append]
    rw [X3DH_init_sender_session] at hpre ⊢
    cases hstep : X3DH_init_sender_step cs ikp dev dbUid (eks.headD 0) st p
        with
    | error e =>
      rw [hstep] at hpre
      simp at hpre
    | ok st3 =>
      rw [hstep] at hpre
      exact ih st3 eks.tail hpre

/-- C2 counterexample: in a batch [good, bad, good], the bundle after the
signature failure gets NO session (the exception aborted the loop), refuting
"all other bundles in the same batch are still processed". The first bundle
keeps its session and the failing bundle left no peer row or cache entry. -/
theorem sender_session_batch_not_continued :
    (X3DH_init_sender_session toySuite 2 [7] 0 emptyLimeState
        [goodBundleA, badSigBundle, goodBundleB] [3, 4, 5]).2 =
      some limeError.bundle_signature_invalid ∧
    cacheLookup (X3DH_init_sender_session toySuite 2 [7] 0 emptyLimeState
        [goodBundleA, badSigBundle, goodBundleB] [3, 4, 5]).1.sessionsCache
        [3] = none ∧
    cacheLookup (X3DH_init_sender_session toySuite 2 [7] 0 emptyLimeState
        [goodBundleA, badSigBundle, goodBundleB] [3, 4, 5]).1.sessionsCache
        [2] = none ∧
    (cacheLookup (X3DH_init_sender_session toySuite 2 [7] 0 emptyLimeState
        [goodBundleA, badSigBundle, goodBundleB] [3, 4, 5]).1.sessionsCache
        [1]).isSome = true ∧
    (X3DH_init_sender_session toySuite 2 [7] 0 emptyLimeState
        [goodBundleA, badSigBundle, goodBundleB] [3, 4, 5]).1.peers =
      [([1], [10])] := by decide

/-- Witness for C2: evaluating the amended statement on the concrete batch
[good, bad, good]; the final state is the prefix-only state. -/
theorem sender_session_sig_fail_aborts_batch_witness :
    X3DH_init_sender_session toySuite 2 [7] 0 emptyLimeState
        ([goodBundleA] ++ badSigBundle :: [goodBundleB]) [3, 4, 5] =
      ((X3DH_init_sender_session toySuite 2 [7] 0 emptyLimeState
          [goodBundleA] [3, 4, 5]).1,
        some limeError.bundle_signature_invalid) :=
  sender_session_sig_fail_aborts_batch toySuite 2 [7] 0 emptyLimeState
    (X3DH_init_sender_session toySuite 2 [7] 0 emptyLimeState
      [goodBundleA] [3, 4, 5]).1
    [goodBundleA] [goodBundleB] badSigBundle [3, 4, 5] (by decide) (by decide)


/-- Erasing a device id from the cache removes its entry. -/
theorem cacheLookup_erase_self (c : List (List Nat × DRSession))
    (dev : List Nat) : cacheLookup (cacheErase c dev) dev = none := by
  induction c with
  | nil => rfl
  | cons e rest ih =>
    by_cases h : e.1 = dev
    · simp only [cacheErase, List.filter_cons, h, decide_not]
      simp [cacheErase] at ih
      simp
      exact ih
    · simp [cacheErase, cacheLookup, List.filter_cons, h]

/-- Appending a fresh entry to a cache that lacks the key makes lookups of
that key find it. -/
theorem cacheLookup_append_self (c : List (List Nat × DRSession))
    (dev : List Nat) (s : DRSession) (h : cacheLookup c dev = none) :
    cacheLookup (c ++ [(dev, s)]) dev = some s := by
  induction c with
  | nil => simp [cacheLookup]
  | cons e rest ih =>
    by_cases he : e.1 = dev
    · simp [cacheLookup, List.find?_cons, he] at h
    · simp only [cacheLookup, List.find?, List.cons_append] at h ⊢
      rw [show (decide (e.1 = dev)) = false by simp [he]] at h ⊢
      exact ih h

/-- C5: when `X3DH_init_sender_session` builds a session for a peer device
that already has a cached session, the freshly built sender session replaces
the cached one exactly when the fetched bundle carried an OPk; otherwise the
cached session is kept and the new one is discarded (`emplace` on an
existing key does nothing). -/
theorem sender_step_cache_policy (cs : CryptoSuite) (ikp : Nat)
    (dev : List Nat) (dbUid ek : Nat) (st : LimeState) (b : X3DH_peerBundle)
    (sOld : DRSession) (did : Nat) (peers2 : List (List Nat × List Nat))
    (hver : cs.verify b.Ik b.SPk b.SPk_sig = true)
    (hstore : store_peerDevice st.peers b.deviceId b.Ik =
      Except.ok (did, peers2))
    (hcached : cacheLookup st.sessionsCache b.deviceId = some sOld) :
    (X3DH_init_sender_step cs ikp dev dbUid ek st b).toOption.bind
        (fun s2 => cacheLookup s2.sessionsCache b.deviceId) =
      some (if b.OPk.isSome then
          mkSenderSession (X3DH_senderDerive cs ikp dev ek b) b.SPk did dbUid
        else sOld) := by
  rw [X3DH_init_sender_step, if_neg (by simp [hver]), hstore]
  cases hOPk : b.OPk with
  | none =>
    simp only [hOPk, Option.isSome_none, Bool.false_eq_true, if_false,
      Except.toOption, Option.bind]
    rw [cacheEmplace, if_pos (by simp [hcached])]
    simpa [hOPk] using hcached
  | some p =>
    simp only [hOPk, Option.isSome_some, if_true, Except.toOption,
      Option.bind]
    rw [cacheEmplace, if_neg (by simp [cacheLookup_erase_self])]
    rw [cacheLookup_append_self _ _ _ (cacheLookup_erase_self _ _)]

/-- Witness for C5: a bundle with an OPk replaces the cached session for
device `[1]`. -/
theorem sender_step_cache_policy_witness :
    (X3DH_init_sender_step toySuite 2 [7] 0 3
        ⟨[], [([1], cachedSessionA)], []⟩ goodBundleOPk).toOption.bind
      (fun s2 => cacheLookup s2.sessionsCache goodBundleOPk.deviceId) =
      some (if goodBundleOPk.OPk.isSome then
          mkSenderSession (X3DH_senderDerive toySuite 2 [7] 3 goodBundleOPk)
            goodBundleOPk.SPk 0 0
        else cachedSessionA) :=
  sender_step_cache_policy toySuite 2 [7] 0 3
    ⟨[], [([1], cachedSessionA)], []⟩ goodBundleOPk cachedSessionA 0
    [([1], [10])] (by decide) rfl rfl


/-- One sender-session step never writes the persisted-session table. -/
theorem sender_step_preserves_stored (cs : CryptoSuite) (ikp : Nat)
    (dev : List Nat) (dbUid ek : Nat) (st : LimeState) (b : X3DH_peerBundle)
    (st2 : LimeState)
    (h : X3DH_init_sender_step cs ikp dev dbUid ek st b = Except.ok st2) :
    st2.storedSessions = st.storedSessions := by
  rw [X3DH_init_sender_step] at h
  split_ifs at h
  all_goals
    cases hs : store_peerDevice st.peers b.deviceId b.Ik with
    | error e => rw [hs] at h; exact Except.noConfusion h
    | ok p =>
      obtain ⟨did, peers2⟩ := p
      rw [hs] at h
      cases h
      rfl

/-- C6 (amended): `X3DH_init_sender_session` is NOT write-through: it
installs freshly built sessions into the in-memory cache but never writes
the persistent session store (persistence is deferred to the first message
build), so after it runs the cache may hold an entry with no persisted
counterpart.  Formally, the persisted-session table is invariant under the
whole bundle loop. -/
theorem sender_session_not_writethrough (cs : CryptoSuite) (ikp : Nat)
    (dev : List Nat) (dbUid : Nat) :
    ∀ (bs : List X3DH_peerBundle) (st : LimeState) (eks : List Nat),
      ((X3DH_init_sender_session cs ikp dev dbUid st bs eks).1).storedSessions
        = st.storedSessions := by
  intro bs
  induction bs with
  | nil => intro st eks; rfl
  | cons b rest ih =>
    intro st eks
    rw [X3DH_init_sender_session]
    cases hstep : X3DH_init_sender_step cs ikp dev dbUid (eks.headD 0) st b
        with
    | error e => rfl
    | ok st3 =>
      rw [ih st3 eks.tail]
      exact sender_step_preserves_stored cs ikp dev dbUid (eks.headD 0) st b
        st3 hstep

/-- C6 counterexample: after building a sender session from one valid
bundle, the cache holds an entry for the peer device while the persisted
session store is still empty - the cache entry does not equal any "most
recently persisted session", refuting write-through coherence. -/
theorem sender_session_cache_entry_unpersisted :
    (cacheLookup (X3DH_init_sender_session toySuite 2 [7] 0 emptyLimeState
        [goodBundleA] [3]).1.sessionsCache [1]).isSome = true ∧
    (X3DH_init_sender_session toySuite 2 [7] 0 emptyLimeState
        [goodBundleA] [3]).1.storedSessions = [] := by decide


/-- C7 (amended): during registration, a server response deletes the local
user if and only if it is an error message with code `user_already_in`
(other error codes abort with a failure callback but no compensating local
delete), and a response of an unexpected non-error, non-peerBundle message
type does not abort at all: it falls into the final "we're done" branch,
firing a SUCCESS callback with no delete and no follow-up post. -/
theorem registration_response_policy (curveId : Nat) (state : network_state)
    (body : List Nat) (mt : x3dh_message_type) (ec : x3dh_error_code)
    (hp : parseMessage_getType curveId body = some (mt, ec)) :
    ((process_response_reg curveId state body).deletedLocalUser = true ↔
      (mt = x3dh_message_type.error ∧
        ec = x3dh_error_code.user_already_in)) ∧
    (mt ≠ x3dh_message_type.error → mt ≠ x3dh_message_type.peerBundle →
      ¬(state = network_state.sendSPk ∧
          mt = x3dh_message_type.registerUser) →
      ¬(state = network_state.sendOPk ∧ mt = x3dh_message_type.postSPk) →
      (process_response_reg curveId state body).callback =
          some callbackReturn.success ∧
        (process_response_reg curveId state body).deletedLocalUser = false ∧
        (process_response_reg curveId state body).posted = none) := by
  rw [process_response_reg, hp]
  constructor
  · by_cases he : mt = x3dh_message_type.error
    · simp [he]
    · by_cases hpb : mt = x3dh_message_type.peerBundle
      · simp [he, hpb]
      · by_cases h1 : state = network_state.sendSPk ∧
            mt = x3dh_message_type.registerUser
        · simp [he, hpb, h1]
        · by_cases h2 : state = network_state.sendOPk ∧
              mt = x3dh_message_type.postSPk
          · simp [he, hpb, h1, h2]
          · simp [he, hpb, h1, h2]
  · intro he hpb h1 h2
    simp [he, hpb, h1, h2]

/-- C7 counterexample: a `db_error` response during registration does NOT
delete the just-created local user, and a response of unexpected type
`postOPks` neither aborts nor deletes - it completes with a success
callback; both refute "any other message type or error-code response aborts
the machine and triggers delete_self". -/
theorem registration_error_no_delete :
    (process_response_reg 1 network_state.sendSPk
        (encodeErrorMsg 1 7 [])).deletedLocalUser = false ∧
    (process_response_reg 1 network_state.sendSPk
        [1, 4, 1]).deletedLocalUser = false ∧
    (process_response_reg 1 network_state.sendSPk [1, 4, 1]).callback =
      some callbackReturn.success := by decide

/-- Witness for C7: a `user_already_in` error response does delete the
local user. -/
theorem registration_response_policy_witness :
    (process_response_reg 1 network_state.sendSPk
        (encodeErrorMsg 1 5 [])).deletedLocalUser = true :=
  (registration_response_policy 1 network_state.sendSPk (encodeErrorMsg 1 5 [])
      x3dh_message_type.error x3dh_error_code.user_already_in
      (by decide)).1.mpr ⟨rfl, rfl⟩

/-- C8: a fetch completion whose weak back-reference to the `Self` instance
fails to resolve produces no outcome at all on `Self`-owned state (no
callback, no delete, no post), and destroying the `Self` instance completes
every queued encryption with status `cancelled`. -/
theorem destroyed_self_fetch_noop (curveId : Nat) (body : List Nat)
    (queue : List EncryptionRequest) :
    process_response_locked curveId none body = none ∧
    (destroySelfWithQueue queue).all
      (fun r => r.2 == queuedStatus.cancelled) = true := by
  constructor
  · rfl
  · simp [destroySelfWithQueue, List.all_map, Function.comp]

end LimeX3DH
